import Mathlib

/-!
Verification of the compile-time query description core of a SQL client
toolkit, against its natural-language specification.

The embedding follows the Rust sources:
  sqlx-core/src/any/kind.rs          (AnyKind, from_str)
  sqlx-core/src/types/text.rs        (Text adapter)
  sqlx-core/src/config/drivers.rs    (Config, PgConfig, ExternalDriverConfig)
  sqlx-macros-core/src/database/impls.rs (describe_blocking entry, static CACHE)
The body of CachingDescribeBlocking (the description cache), the connection
pool and the blocking bridge are not part of the sources at hand, so those
components are modelled from the specification text, as marked on each
definition.
-/

namespace Sqlx

/-- Error type of the core; only the Configuration variant is needed here
(kind.rs returns it from AnyKind.from_str). -/
inductive Error where
  | Configuration (msg : String)
deriving DecidableEq, Repr

/-- The deprecated dialect-selection enumeration from any/kind.rs, compiled
with the postgres feature enabled, so the only variant is Postgres. -/
inductive AnyKind where
  | Postgres
deriving DecidableEq, Repr

/-- Embedding of Rust str::starts_with on whole characters: the pattern is a
prefix of the string. -/
def rustStartsWith (s pat : String) : Bool :=
  pat.data.isPrefixOf s.data

/-- FromStr for AnyKind (any/kind.rs, postgres feature enabled): a URL whose
scheme is postgres or postgresql maps to AnyKind.Postgres, anything else to a
Configuration error naming the URL. Rust formats the URL with Debug ({url:?});
that quoting is modelled by wrapping the URL in double quotes. -/
def AnyKind.from_str (url : String) : Except Error AnyKind :=
  if rustStartsWith url "postgres:" || rustStartsWith url "postgresql:" then
    .ok AnyKind.Postgres
  else
    .error (.Configuration ("unrecognized database url: \"" ++ url ++ "\""))

/-- The Text adapter (types/text.rs): a transparent wrapper around a value,
mapped to and from SQL text. Rust declares it as a tuple struct Text<T>(pub T);
the single public field is named inner here. -/
structure Text (T : Type) where
  inner : T
deriving DecidableEq, Repr

/-- Extract the inner value (Text::into_inner). -/
def Text.into_inner {T : Type} (t : Text T) : T :=
  t.inner

/-- Deref for Text yields the inner value (the shallow embedding reads the
value a shared reference points to). -/
def Text.deref {T : Type} (t : Text T) : T :=
  t.inner

/-- DerefMut for Text hands out a mutable reference to the inner value; in the
shallow embedding a mutation through that reference is an update function
applied to the place the reference designates. -/
def Text.deref_mut_modify {T : Type} (f : T → T) (t : Text T) : Text T :=
  { t with inner := f t.inner }

/-- TOML values, as far as the driver configuration needs them (drivers.rs
stores toml::Table values per external driver name). -/
inductive TomlValue where
  | str (s : String)
  | int (n : Int)
  | boolean (b : Bool)
  | table (kvs : List (String × TomlValue))

/-- A TOML table: ordered key-value pairs with string keys. -/
abbrev TomlTable := List (String × TomlValue)

/-- Configuration for the Postgres driver (drivers.rs): no fields are
implemented yet, the key exists only to validate parsing. -/
structure PgConfig where
deriving DecidableEq, Repr

/-- Configuration for external database drivers (drivers.rs, sqlx-toml
feature): a map from driver name to its raw TOML table, modelled as an
association list with unique keys, first match on lookup. -/
structure ExternalDriverConfig where
  by_name : List (String × TomlTable)

/-- Configuration for specific database drivers (drivers.rs Config): one
field per recognized driver plus the external-driver map. -/
structure Config where
  postgres : PgConfig
  external : ExternalDriverConfig

/-- Lookup in the by_name map (BTreeMap::get in drivers.rs). -/
def lookupByName : List (String × TomlTable) → String → Option TomlTable
  | [], _ => none
  | (k, v) :: rest, name => if k = name then some v else lookupByName rest name

/-- ExternalDriverConfig::try_parse (drivers.rs, sqlx-toml feature): look up
the config table for the driver name; absent gives Ok none; present gives the
result of deserializing a clone of the table. The generic deserialization
(toml try_into for the target type T) is passed in as tryInto. The Rust method
takes self by shared reference, so the embedding returns, next to the result,
the configuration object as the caller observes it after the call. -/
def ExternalDriverConfig.try_parse {T : Type}
    (tryInto : TomlTable → Except String T)
    (self : ExternalDriverConfig) (name : String) :
    Except String (Option T) × ExternalDriverConfig :=
  match lookupByName self.by_name name with
  | none => (.ok none, self)
  | some config =>
    match tryInto config with
    | .ok t => (.ok (some t), self)
    | .error e => (.error e, self)

/-- Expect a TOML value to be a table (toml deserialization of a table-typed
field). -/
def tomlAsTable : TomlValue → Except String TomlTable
  | .table kvs => .ok kvs
  | _ => .error "invalid type: expected a table"

/-- Modelled from the spec: the serde Deserialize derive for PgConfig is
library code outside the sources at hand; drivers.rs declares it with
deny_unknown_fields and no fields, so every key present in the input is an
unknown field and is rejected. -/
def PgConfig.deserialize : TomlTable → Except String PgConfig
  | [] => .ok {}
  | (k, _) :: _ => .error ("unknown field \"" ++ k ++ "\"")

/-- Entries of the external-driver map: every value must itself be a table. -/
def externalEntries : List (String × TomlValue) → Except String (List (String × TomlTable))
  | [] => .ok []
  | (k, v) :: rest => do
    let tbl ← tomlAsTable v
    let more ← externalEntries rest
    .ok ((k, tbl) :: more)

/-- Modelled from the spec: the serde Deserialize derive for
ExternalDriverConfig (transparent over a map from name to table) is library
code outside the sources at hand; any driver name is accepted here by design,
each value must be a table. -/
def ExternalDriverConfig.deserialize (t : TomlTable) : Except String ExternalDriverConfig :=
  match externalEntries t with
  | .ok es => .ok { by_name := es }
  | .error e => .error e

/-- Modelled from the spec: the serde Deserialize derive for Config is
library code outside the sources at hand; drivers.rs declares it with
serde(default, deny_unknown_fields) and fields postgres and external, so each
input key is dispatched to its field, a duplicate field is rejected, an
unknown field is rejected, and missing fields take their defaults. -/
def Config.deserializeFields :
    TomlTable → Option PgConfig → Option ExternalDriverConfig → Except String Config
  | [], pg?, ext? =>
    .ok { postgres := pg?.getD {}, external := ext?.getD { by_name := [] } }
  | (k, v) :: rest, pg?, ext? =>
    if k = "postgres" then
      match pg? with
      | some _ => .error "duplicate field \"postgres\""
      | none => do
        let tbl ← tomlAsTable v
        let pg ← PgConfig.deserialize tbl
        Config.deserializeFields rest (some pg) ext?
    else if k = "external" then
      match ext? with
      | some _ => .error "duplicate field \"external\""
      | none => do
        let tbl ← tomlAsTable v
        let ext ← ExternalDriverConfig.deserialize tbl
        Config.deserializeFields rest pg? (some ext)
    else
      .error ("unknown field \"" ++ k ++ "\"")

/-- Top-level configuration parsing (serde derive semantics for Config). -/
def Config.deserialize (t : TomlTable) : Except String Config :=
  Config.deserializeFields t none none

/-- The empty driver configuration (Config::default in drivers.rs). -/
def cfgDefault : Config :=
  { postgres := {}, external := { by_name := [] } }

/-- Cache key of the description cache: connection URL and exact query text,
compared by structural (exact string) equality. -/
structure CacheKey where
  url : String
  query_text : String
deriving DecidableEq, Repr

/-- Nullability of a described column: known not null, known nullable, or
unknown. -/
inductive Nullability where
  | notNull
  | nullable
  | unknown
deriving DecidableEq, Repr

/-- Descriptor of one statement parameter: position and type identity. -/
structure ParameterDescriptor where
  position : Nat
  type_id : String
deriving DecidableEq, Repr

/-- Descriptor of one result column: name, type identity, nullability. -/
structure ColumnDescriptor where
  name : String
  type_id : String
  nullable : Nullability
deriving DecidableEq, Repr

/-- A Description: ordered parameters and ordered columns, immutable once
constructed. -/
structure Description where
  parameters : List ParameterDescriptor
  columns : List ColumnDescriptor
deriving DecidableEq, Repr

/-- Failure kinds a describe call can surface (spec section 7). -/
inductive DescribeFailure where
  | connectionError (msg : String)
  | protocolError (msg : String)
  | poolTimeout
deriving DecidableEq, Repr

/-- Resolved entries of one description cache: key to Description. Failures
are never stored, so only successes appear. -/
abbrev CacheMap := List (CacheKey × Description)

/-- Lookup of a resolved cache entry by exact key equality. -/
def lookupResolved : CacheMap → CacheKey → Option Description
  | [], _ => none
  | (k, d) :: rest, key => if k = key then some d else lookupResolved rest key

/-- Modelled from the spec: sequential semantics of
CachingDescribeBlocking.describe (spec 4.4), whose body is not among the
sources at hand; impls.rs only calls it. A resolved entry is returned with no
network operation; on a miss the describe exchange runs (the network is the
oracle net), a success is installed as a resolved entry, a failure leaves the
cache without an entry for the key. The result carries, in order: the
outcome, the driver settings as observable after the call, the cache after
the call, and the number of network describe exchanges performed. -/
def describe_cached (net : CacheKey → Config → Except DescribeFailure Description)
    (settings : Config) (cache : CacheMap) (key : CacheKey) :
    Except DescribeFailure Description × Config × CacheMap × Nat :=
  match lookupResolved cache key with
  | some d => (.ok d, settings, cache, 0)
  | none =>
    match net key settings with
    | .ok d => (.ok d, settings, (key, d) :: cache, 1)
    | .error e => (.error e, settings, cache, 1)

/-- Outcome of the one describe exchange of an in-flight episode. -/
inductive Outcome where
  | success (d : Description)
  | failure (e : DescribeFailure)
deriving DecidableEq, Repr

/-- Tri-state cache entry for one key (spec section 3): absent, in-flight, or
resolved. -/
inductive FlightEntry where
  | absent
  | inflight
  | resolved (d : Description)
deriving DecidableEq, Repr

/-- State of one caller in the single-flight model: not yet looked up,
waiting on the in-flight exchange, or finished with an outcome. -/
inductive CallerState where
  | idle
  | waiting
  | done (o : Outcome)
deriving DecidableEq, Repr

/-- Global state of the single-flight model for one cache key and N callers:
the entry for the key, each caller, and how many describe exchanges have been
started. -/
structure FlightState (N : Nat) where
  entry : FlightEntry
  callers : Fin N → CallerState
  exchanges : Nat

/-- Modelled from the spec: the lookup step of describe_cached for one key
(spec 4.4 steps 2 to 4). A caller that sees a resolved entry finishes with
that Description and no network operation; one that sees the in-flight marker
joins as a waiter; one that sees no entry installs the in-flight marker and
starts the single describe exchange. -/
def flightLookup {N : Nat} (s : FlightState N) (i : Fin N) : FlightState N :=
  match s.entry with
  | .resolved d =>
    { s with callers := fun j => if j = i then .done (.success d) else s.callers j }
  | .inflight =>
    { s with callers := fun j => if j = i then .waiting else s.callers j }
  | .absent =>
    { entry := .inflight
      callers := fun j => if j = i then .waiting else s.callers j
      exchanges := s.exchanges + 1 }

/-- Modelled from the spec: completion of the in-flight exchange with outcome
o (spec 4.4 step 4): success replaces the marker with a resolved entry,
failure removes the marker; either way every waiter receives the same
outcome. -/
def flightComplete {N : Nat} (o : Outcome) (s : FlightState N) : FlightState N :=
  { entry := match o with | .success d => .resolved d | .failure _ => .absent
    callers := fun j => if s.callers j = .waiting then .done o else s.callers j
    exchanges := s.exchanges }

/-- Run the lookup steps of the listed callers, in that order. -/
def flightLookups {N : Nat} : List (Fin N) → FlightState N → FlightState N
  | [], s => s
  | i :: rest, s => flightLookups rest (flightLookup s i)

/-- Initial single-flight state: no entry, every caller idle, no exchange. -/
def flightInit (N : Nat) : FlightState N :=
  { entry := .absent, callers := fun _ => .idle, exchanges := 0 }

/-- One interleaving of N concurrent first-time callers on the same key: all
lookups happen (in an arbitrary order) before the exchange completes with
outcome o — the meaning of the calls being concurrent and first-time. -/
def singleFlightRun {N : Nat} (o : Outcome) (order : List (Fin N)) : FlightState N :=
  flightComplete o (flightLookups order (flightInit N))

/-- The dialects compiled into the build (impls.rs with the postgres
feature). -/
inductive Dialect where
  | postgres
deriving DecidableEq, Repr

/-- Process-wide registry of per-dialect cache instances, generic in the
dialect type exactly as impl_describe_blocking is generic in the database
type: which dialects have a constructed cache (identified by a number) and
the next fresh identity. -/
structure ProcessState (D : Type) where
  caches : D → Option Nat
  nextId : Nat

/-- Process start: no cache instance constructed yet. -/
def processInit (D : Type) : ProcessState D :=
  { caches := fun _ => none, nextId := 0 }

/-- Embedding of impl_describe_blocking (impls.rs): describe_blocking for a
dialect is served by the static CACHE of that dialect, one per monomorphized
entry point. Modelled from the spec for the construction discipline: the
instance is created lazily the first time that dialect path runs and is never
torn down before process exit; instances carry a numeric identity so that
sameness is observable. -/
def getCacheOrInit {D : Type} [DecidableEq D] (s : ProcessState D) (d : D) :
    Nat × ProcessState D :=
  match s.caches d with
  | some idn => (idn, s)
  | none =>
    (s.nextId,
     { caches := fun d2 => if d2 = d then some s.nextId else s.caches d2
       nextId := s.nextId + 1 })

/-- Run a sequence of describe_blocking calls, one dialect per call. -/
def runCalls {D : Type} [DecidableEq D] : List D → ProcessState D → ProcessState D
  | [], s => s
  | d :: rest, s => runCalls rest (getCacheOrInit s d).2

/-- Connection accounting of one pool (one URL): how many connections are
open (live) and how many of those are currently borrowed. -/
structure PoolState where
  live : Nat
  borrowed : Nat
deriving DecidableEq, Repr

/-- Modelled from the spec: connection pool transitions for one URL with
configured maximum M (spec 4.2), the pool body is not among the sources at
hand. An acquire completes either by reusing an idle pooled connection or by
lazily opening a new one while the pool is below its maximum; releasing
returns the borrowed connection to the pool; a connection found broken on
release is discarded and the size accounting decremented. -/
inductive PoolStep (M : Nat) : PoolState → PoolState → Prop where
  | acquireNew (s : PoolState) :
      s.live < M → PoolStep M s { live := s.live + 1, borrowed := s.borrowed + 1 }
  | acquireReuse (s : PoolState) :
      s.borrowed < s.live → PoolStep M s { s with borrowed := s.borrowed + 1 }
  | release (s : PoolState) :
      0 < s.borrowed → PoolStep M s { s with borrowed := s.borrowed - 1 }
  | discardBroken (s : PoolState) :
      0 < s.borrowed → PoolStep M s { live := s.live - 1, borrowed := s.borrowed - 1 }

/-- A fresh pool: no connection open. -/
def poolInit : PoolState :=
  { live := 0, borrowed := 0 }

/-- Pool states reachable from a fresh pool under maximum M. -/
def PoolReachable (M : Nat) : PoolState → Prop :=
  Relation.ReflTransGen (PoolStep M) poolInit

/-- The Description of spec Scenario A, used as a concrete test value. -/
def descA : Description :=
  { parameters := [{ position := 1, type_id := "integer" }]
    columns :=
      [{ name := "id", type_id := "integer", nullable := .notNull },
       { name := "name", type_id := "text", nullable := .nullable }] }

end Sqlx

namespace Sqlx

/-- C9: with the postgres feature enabled, AnyKind.from_str returns
Ok Postgres exactly on strings starting with "postgres:" or "postgresql:",
and on every other string returns a Configuration error whose message names
the unrecognized URL. The Lean function is total, so no panic is possible. -/
theorem anyKind_from_str_spec (url : String) :
    (AnyKind.from_str url = .ok AnyKind.Postgres ↔
      (rustStartsWith url "postgres:" || rustStartsWith url "postgresql:") = true) ∧
    (¬ (rustStartsWith url "postgres:" || rustStartsWith url "postgresql:") = true →
      AnyKind.from_str url =
        .error (.Configuration ("unrecognized database url: \"" ++ url ++ "\""))) := by
  constructor
  · constructor
    · intro h
      by_contra hc
      simp only [AnyKind.from_str, hc, if_false] at h
      exact Except.noConfusion h
    · intro h
      simp [AnyKind.from_str, h]
  · intro h
    simp [AnyKind.from_str, h]

/-- Witness for anyKind_from_str_spec at the concrete URL "mysql://x". -/
theorem anyKind_from_str_spec_witness :
    AnyKind.from_str "mysql://x" =
      .error (.Configuration ("unrecognized database url: \"" ++ "mysql://x" ++ "\"")) :=
  (anyKind_from_str_spec "mysql://x").2 (by decide)

/-- Helper: binding a failed Except computation short-circuits to the same
error. -/
theorem except_bind_error {e a b : Type} (err : e) (f : a → Except e b) :
    (Except.error err >>= f) = Except.error err :=
  rfl

/-- Helper: binding a successful Except computation applies the
continuation. -/
theorem except_bind_ok {e a b : Type} (x : a) (f : a → Except e b) :
    (Except.ok x >>= f) = f x :=
  rfl

/-- Helper: a successful describe_cached call leaves a resolved entry for its
key holding exactly the returned Description. -/
theorem lookupResolved_after_success
    (net : CacheKey → Config → Except DescribeFailure Description)
    (settings : Config) (cache : CacheMap) (key : CacheKey) (d : Description)
    (h : (describe_cached net settings cache key).1 = .ok d) :
    lookupResolved (describe_cached net settings cache key).2.2.1 key = some d := by
  cases hc : lookupResolved cache key with
  | some d0 =>
    have heq : describe_cached net settings cache key = (.ok d0, settings, cache, 0) := by
      unfold describe_cached; rw [hc]
    rw [heq] at h ⊢
    simp only [Except.ok.injEq] at h
    rw [hc, h]
  | none =>
    cases hn : net key settings with
    | ok d0 =>
      have heq : describe_cached net settings cache key
          = (.ok d0, settings, (key, d0) :: cache, 1) := by
        unfold describe_cached; rw [hc, hn]
      rw [heq] at h ⊢
      simp only [Except.ok.injEq] at h
      simp [lookupResolved, h]
    | error e =>
      have heq : describe_cached net settings cache key
          = (.error e, settings, cache, 1) := by
        unfold describe_cached; rw [hc, hn]
      rw [heq] at h
      exact absurd h (by simp)

/-- C1: once describe_cached has succeeded for a key, every subsequent call
with the identical key performs zero network operations, leaves the cache
unchanged, and returns a Description equal to the first successful result,
whatever the network oracle would now answer. -/
theorem cache_hit_idempotent
    (net net2 : CacheKey → Config → Except DescribeFailure Description)
    (settings settings2 : Config) (cache : CacheMap) (key : CacheKey) (d : Description)
    (h : (describe_cached net settings cache key).1 = .ok d) :
    describe_cached net2 settings2 (describe_cached net settings cache key).2.2.1 key
      = (.ok d, settings2, (describe_cached net settings cache key).2.2.1, 0) := by
  have hl := lookupResolved_after_success net settings cache key d h
  generalize hc2 : (describe_cached net settings cache key).2.2.1 = c2 at hl ⊢
  unfold describe_cached
  rw [hl]

/-- Witness for cache_hit_idempotent: after a first successful call for the
key, a second call returns the same Description with zero network operations
even though the network oracle now always fails. -/
theorem cache_hit_idempotent_witness :
    describe_cached (fun _ _ => .error (.connectionError "down")) cfgDefault
        (describe_cached (fun _ _ => .ok descA) cfgDefault []
          { url := "postgres://db", query_text := "SELECT 1" }).2.2.1
        { url := "postgres://db", query_text := "SELECT 1" }
      = (.ok descA, cfgDefault,
         (describe_cached (fun _ _ => .ok descA) cfgDefault []
           { url := "postgres://db", query_text := "SELECT 1" }).2.2.1, 0) :=
  cache_hit_idempotent (fun _ _ => .ok descA) (fun _ _ => .error (.connectionError "down"))
    cfgDefault cfgDefault [] { url := "postgres://db", query_text := "SELECT 1" } descA rfl

/-- C3: a failing describe_cached call leaves the cache without an entry for
its key (its cache was and stays without one), so a subsequent call with the
same key starts fresh; if that subsequent call succeeds on the network it
returns the new Description, performs one exchange, and installs a resolved
entry. -/
theorem failure_not_memoized
    (net net2 : CacheKey → Config → Except DescribeFailure Description)
    (settings settings2 : Config) (cache : CacheMap) (key : CacheKey)
    (e : DescribeFailure) (d : Description)
    (h : (describe_cached net settings cache key).1 = .error e)
    (h2 : net2 key settings2 = .ok d) :
    (describe_cached net settings cache key).2.2.1 = cache ∧
    lookupResolved cache key = none ∧
    describe_cached net2 settings2 cache key = (.ok d, settings2, (key, d) :: cache, 1) ∧
    lookupResolved ((key, d) :: cache) key = some d := by
  cases hc : lookupResolved cache key with
  | some d0 =>
    have heq : describe_cached net settings cache key = (.ok d0, settings, cache, 0) := by
      unfold describe_cached; rw [hc]
    rw [heq] at h
    exact absurd h (by simp)
  | none =>
    cases hn : net key settings with
    | ok d0 =>
      have heq : describe_cached net settings cache key
          = (.ok d0, settings, (key, d0) :: cache, 1) := by
        unfold describe_cached; rw [hc, hn]
      rw [heq] at h
      exact absurd h (by simp)
    | error e0 =>
      have heq : describe_cached net settings cache key
          = (.error e0, settings, cache, 1) := by
        unfold describe_cached; rw [hc, hn]
      refine ⟨by rw [heq], rfl, ?_, by simp [lookupResolved]⟩
      unfold describe_cached
      rw [hc, h2]

/-- Witness for failure_not_memoized: a call against a down network fails and
caches nothing; the retry against a working network succeeds and is cached. -/
theorem failure_not_memoized_witness :
    (describe_cached (fun _ _ => .error (.connectionError "refused")) cfgDefault []
        { url := "postgres://db", query_text := "SELECT 1" }).2.2.1 = [] ∧
    lookupResolved [] { url := "postgres://db", query_text := "SELECT 1" } = none ∧
    describe_cached (fun _ _ => .ok descA) cfgDefault []
        { url := "postgres://db", query_text := "SELECT 1" }
      = (.ok descA, cfgDefault,
         ({ url := "postgres://db", query_text := "SELECT 1" }, descA) :: [], 1) ∧
    lookupResolved [({ url := "postgres://db", query_text := "SELECT 1" }, descA)]
        { url := "postgres://db", query_text := "SELECT 1" } = some descA :=
  failure_not_memoized (fun _ _ => .error (.connectionError "refused"))
    (fun _ _ => .ok descA) cfgDefault cfgDefault []
    { url := "postgres://db", query_text := "SELECT 1" }
    (.connectionError "refused") descA rfl rfl

/-- C6: cache keys pair the URL with the exact query text: two query texts
differing in any character give distinct keys, installing a resolved entry
for one leaves the lookup of the other untouched, and a call with the second
key still performs its own network exchange when that key was not already
cached. -/
theorem key_exactness
    (u q1 q2 : String) (hne : q1 ≠ q2)
    (net : CacheKey → Config → Except DescribeFailure Description)
    (settings : Config) (cache : CacheMap) (d : Description)
    (hmiss : lookupResolved cache { url := u, query_text := q2 } = none) :
    ({ url := u, query_text := q1 } : CacheKey) ≠ { url := u, query_text := q2 } ∧
    lookupResolved (({ url := u, query_text := q1 }, d) :: cache)
        { url := u, query_text := q2 }
      = lookupResolved cache { url := u, query_text := q2 } ∧
    (describe_cached net settings (({ url := u, query_text := q1 }, d) :: cache)
        { url := u, query_text := q2 }).2.2.2 = 1 := by
  have hkne : ({ url := u, query_text := q1 } : CacheKey)
      ≠ { url := u, query_text := q2 } := by
    intro hcontra
    exact hne (congrArg CacheKey.query_text hcontra)
  have hlook : lookupResolved (({ url := u, query_text := q1 }, d) :: cache)
      { url := u, query_text := q2 }
      = lookupResolved cache { url := u, query_text := q2 } := by
    simp [lookupResolved, hkne]
  refine ⟨hkne, hlook, ?_⟩
  unfold describe_cached
  rw [hlook, hmiss]
  cases net { url := u, query_text := q2 } settings with
  | ok d2 => rfl
  | error e2 => rfl

/-- Witness for key_exactness at two query texts differing only in
whitespace. -/
theorem key_exactness_witness :
    ({ url := "postgres://db", query_text := "SELECT 1" } : CacheKey)
      ≠ { url := "postgres://db", query_text := "SELECT  1" } ∧
    lookupResolved [({ url := "postgres://db", query_text := "SELECT 1" }, descA)]
        { url := "postgres://db", query_text := "SELECT  1" }
      = lookupResolved [] { url := "postgres://db", query_text := "SELECT  1" } ∧
    (describe_cached (fun _ _ => .ok descA) cfgDefault
        [({ url := "postgres://db", query_text := "SELECT 1" }, descA)]
        { url := "postgres://db", query_text := "SELECT  1" }).2.2.2 = 1 :=
  key_exactness "postgres://db" "SELECT 1" "SELECT  1" (by decide)
    (fun _ _ => .ok descA) cfgDefault [] descA rfl

/-- Helper: once the in-flight marker is installed, further lookups only add
waiters: the entry stays in-flight, the exchange count does not move, and
exactly the callers that looked up (plus earlier waiters) are waiting. -/
theorem flightLookups_inflight {N : Nat} (l : List (Fin N)) (s : FlightState N)
    (h : s.entry = .inflight) :
    (flightLookups l s).entry = .inflight ∧
    (flightLookups l s).exchanges = s.exchanges ∧
    ∀ j, (flightLookups l s).callers j = if j ∈ l then .waiting else s.callers j := by
  induction l generalizing s with
  | nil => simp [flightLookups, h]
  | cons i rest ih =>
    have hstep : flightLookup s i =
        { s with callers := fun j => if j = i then .waiting else s.callers j } := by
      unfold flightLookup; rw [h]
    have hrec := ih { s with callers := fun j => if j = i then .waiting else s.callers j } h
    refine ⟨?_, ?_, ?_⟩
    · show (flightLookups rest (flightLookup s i)).entry = .inflight
      rw [hstep]; exact hrec.1
    · show (flightLookups rest (flightLookup s i)).exchanges = s.exchanges
      rw [hstep]; exact hrec.2.1
    · intro j
      show (flightLookups rest (flightLookup s i)).callers j
        = if j ∈ i :: rest then .waiting else s.callers j
      rw [hstep, hrec.2.2 j]
      by_cases hjr : j ∈ rest
      · simp [hjr, List.mem_cons]
      · by_cases hji : j = i
        · simp [hjr, hji, List.mem_cons]
        · simp [hjr, hji, List.mem_cons]

/-- C2: N concurrent first-time callers on one key — every caller performs
its lookup, in an arbitrary order, before the single exchange completes with
outcome o — cause exactly one describe exchange, and every caller finishes
with that same outcome, success or failure alike. -/
theorem single_flight (N : Nat) (o : Outcome) (order : List (Fin N))
    (hne : order ≠ []) (hall : ∀ i : Fin N, i ∈ order) :
    (singleFlightRun o order).exchanges = 1 ∧
    ∀ i : Fin N, (singleFlightRun o order).callers i = .done o := by
  cases order with
  | nil => exact absurd rfl hne
  | cons i0 rest =>
    have h1 : flightLookup (flightInit N) i0 =
        { entry := .inflight
          callers := fun j => if j = i0 then .waiting else .idle
          exchanges := 1 } := by
      unfold flightLookup flightInit
      rfl
    have hrun : flightLookups (i0 :: rest) (flightInit N)
        = flightLookups rest
            { entry := .inflight
              callers := fun j => if j = i0 then .waiting else .idle
              exchanges := 1 } := by
      show flightLookups rest (flightLookup (flightInit N) i0) = _
      rw [h1]
    have hinf := flightLookups_inflight rest
      { entry := .inflight
        callers := fun j => if j = i0 then .waiting else .idle
        exchanges := 1 } rfl
    have hwait : ∀ i : Fin N,
        (flightLookups (i0 :: rest) (flightInit N)).callers i = .waiting := by
      intro i
      rw [hrun, hinf.2.2 i]
      rcases List.mem_cons.mp (hall i) with hi0 | hirest
      · simp [hi0]
      · simp [hirest]
    constructor
    · show (flightComplete o (flightLookups (i0 :: rest) (flightInit N))).exchanges = 1
      unfold flightComplete
      rw [hrun]
      exact hinf.2.1
    · intro i
      show (flightComplete o (flightLookups (i0 :: rest) (flightInit N))).callers i = .done o
      unfold flightComplete
      simp [hwait i]

/-- Witness for single_flight: two concurrent first-time callers, exchange
succeeding with the Scenario A description: one exchange, both callers done
with that same success. -/
theorem single_flight_witness :
    (singleFlightRun (.success descA) [(0 : Fin 2), 1]).exchanges = 1 ∧
    ∀ i : Fin 2,
      (singleFlightRun (.success descA) [(0 : Fin 2), 1]).callers i
        = .done (.success descA) :=
  single_flight 2 (.success descA) [(0 : Fin 2), 1] (by simp) (by decide)

/-- Helper: a cache instance, once registered for a dialect, survives any
further sequence of calls unchanged. -/
theorem runCalls_preserves {D : Type} [DecidableEq D] (calls : List D)
    (s : ProcessState D) (d : D) (idn : Nat) (h : s.caches d = some idn) :
    (runCalls calls s).caches d = some idn := by
  induction calls generalizing s with
  | nil => exact h
  | cons c rest ih =>
    show (runCalls rest (getCacheOrInit s c).2).caches d = some idn
    apply ih
    unfold getCacheOrInit
    cases hc : s.caches c with
    | some j => exact h
    | none =>
      show (if d = c then some s.nextId else s.caches d) = some idn
      have hdc : d ≠ c := by
        intro hcontra
        rw [hcontra] at h
        rw [h] at hc
        exact Option.noConfusion hc
      rw [if_neg hdc]
      exact h

/-- Helper: after a sequence of calls, a dialect has a constructed cache
exactly when it was called or already had one. -/
theorem runCalls_isSome {D : Type} [DecidableEq D] (calls : List D)
    (s : ProcessState D) (d : D) :
    ((runCalls calls s).caches d).isSome = true
      ↔ d ∈ calls ∨ (s.caches d).isSome = true := by
  induction calls generalizing s with
  | nil => simp [runCalls]
  | cons c rest ih =>
    show ((runCalls rest (getCacheOrInit s c).2).caches d).isSome = true ↔ _
    rw [ih]
    have hstep : (((getCacheOrInit s c).2).caches d).isSome = true
        ↔ d = c ∨ (s.caches d).isSome = true := by
      by_cases hdc : d = c
      · subst hdc
        unfold getCacheOrInit
        cases hc : s.caches d with
        | some j => simp [hc]
        | none => simp [hc]
      · have h2 : (((getCacheOrInit s c).2).caches d) = s.caches d := by
          unfold getCacheOrInit
          cases hc : s.caches c with
          | some j => rfl
          | none =>
            show (if d = c then some s.nextId else s.caches d) = s.caches d
            exact if_neg hdc
        rw [h2]
        simp [hdc]
    rw [hstep, List.mem_cons]
    tauto

/-- Helper: running an appended call sequence runs the two parts in order. -/
theorem runCalls_append {D : Type} [DecidableEq D] (calls1 calls2 : List D)
    (s : ProcessState D) :
    runCalls (calls1 ++ calls2) s = runCalls calls2 (runCalls calls1 s) := by
  induction calls1 generalizing s with
  | nil => rfl
  | cons c rest ih =>
    show runCalls (rest ++ calls2) (getCacheOrInit s c).2 = _
    exact ih (getCacheOrInit s c).2

/-- C4: describe_blocking for a dialect is served by one process-wide cache
instance: the instance exists exactly when the dialect has been used (lazy
construction on first use), later calls never tear it down, and once
constructed every further call for that dialect returns the same instance and
leaves the registry untouched. -/
theorem cache_singleton_per_dialect :
    (∀ (D : Type) [DecidableEq D] (calls : List D) (d : D),
      ((runCalls calls (processInit D)).caches d).isSome = true ↔ d ∈ calls) ∧
    (∀ (D : Type) [DecidableEq D] (calls1 calls2 : List D) (d : D) (idn : Nat),
      (runCalls calls1 (processInit D)).caches d = some idn →
      (runCalls (calls1 ++ calls2) (processInit D)).caches d = some idn) ∧
    (∀ (D : Type) [DecidableEq D] (s : ProcessState D) (d : D) (idn : Nat),
      s.caches d = some idn → getCacheOrInit s d = (idn, s)) := by
  refine ⟨?_, ?_, ?_⟩
  · intro D instD calls d
    rw [runCalls_isSome]
    simp [processInit]
  · intro D instD calls1 calls2 d idn h
    rw [runCalls_append]
    exact runCalls_preserves calls2 (runCalls calls1 (processInit D)) d idn h
  · intro D instD s d idn h
    unfold getCacheOrInit
    rw [h]

/-- Witness for cache_singleton_per_dialect: after one postgres call the
instance has identity 0; a repeated call keeps it, and invoking the entry
point again returns the same instance without touching the registry. -/
theorem cache_singleton_per_dialect_witness :
    (runCalls ([Dialect.postgres] ++ [Dialect.postgres])
        (processInit Dialect)).caches Dialect.postgres = some 0 ∧
    getCacheOrInit (runCalls [Dialect.postgres] (processInit Dialect))
        Dialect.postgres
      = (0, runCalls [Dialect.postgres] (processInit Dialect)) :=
  ⟨cache_singleton_per_dialect.2.1 Dialect [Dialect.postgres] [Dialect.postgres]
      Dialect.postgres 0 rfl,
   cache_singleton_per_dialect.2.2 Dialect
      (runCalls [Dialect.postgres] (processInit Dialect)) Dialect.postgres 0 rfl⟩

/-- Helper: pool invariant — in every reachable state the borrowed count is
at most the live count, which is at most the configured maximum. -/
theorem pool_invariant (M : Nat) (s : PoolState) (h : PoolReachable M s) :
    s.borrowed ≤ s.live ∧ s.live ≤ M := by
  induction h with
  | refl => exact ⟨Nat.le_refl 0, Nat.zero_le M⟩
  | tail hr hstep ih =>
    rename_i b c
    obtain ⟨ih1, ih2⟩ := ih
    cases hstep with
    | acquireNew hlt =>
      exact ⟨by show b.borrowed + 1 ≤ b.live + 1; omega,
             by show b.live + 1 ≤ M; omega⟩
    | acquireReuse hlt =>
      exact ⟨by show b.borrowed + 1 ≤ b.live; omega, ih2⟩
    | release hpos =>
      exact ⟨by show b.borrowed - 1 ≤ b.live; omega, ih2⟩
    | discardBroken hpos =>
      exact ⟨by show b.borrowed - 1 ≤ b.live - 1; omega,
             by show b.live - 1 ≤ M; omega⟩

/-- C5: from a fresh pool with configured maximum M, the live-connection
count never exceeds M in any reachable state; and in a saturated state (M
connections open, all borrowed) every enabled step lowers the borrowed count,
so a pending acquire can complete only after a connection frees. -/
theorem pool_bound (M : Nat) (s : PoolState) (h : PoolReachable M s) :
    s.live ≤ M ∧
    (s.borrowed = M → s.live = M →
      ∀ s2 : PoolState, PoolStep M s s2 → s2.borrowed + 1 = M) := by
  refine ⟨(pool_invariant M s h).2, ?_⟩
  intro hb hl s2 hstep
  cases hstep with
  | acquireNew hlt => omega
  | acquireReuse hlt => omega
  | release hpos =>
    show s.borrowed - 1 + 1 = M
    omega
  | discardBroken hpos =>
    show s.borrowed - 1 + 1 = M
    omega

/-- Witness for pool_bound: the saturated state of a maximum-1 pool, reached
by one lazy connection open, respects the bound and only frees next. -/
theorem pool_bound_witness :
    ({ live := 1, borrowed := 1 } : PoolState).live ≤ 1 ∧
    (({ live := 1, borrowed := 1 } : PoolState).borrowed = 1 →
      ({ live := 1, borrowed := 1 } : PoolState).live = 1 →
      ∀ s2 : PoolState, PoolStep 1 { live := 1, borrowed := 1 } s2 →
        s2.borrowed + 1 = 1) :=
  pool_bound 1 { live := 1, borrowed := 1 }
    (Relation.ReflTransGen.single (PoolStep.acquireNew poolInit (by decide)))

/-- C7: the driver settings are taken by reference and never mutated by the
core: the configuration object observable after ExternalDriverConfig.try_parse
equals the one observable before, and the settings component coming out of a
describe_cached call equals the settings passed in. -/
theorem settings_never_mutated {T : Type}
    (tryInto : TomlTable → Except String T)
    (cfg : ExternalDriverConfig) (name : String)
    (net : CacheKey → Config → Except DescribeFailure Description)
    (settings : Config) (cache : CacheMap) (key : CacheKey) :
    (ExternalDriverConfig.try_parse tryInto cfg name).2 = cfg ∧
    (describe_cached net settings cache key).2.1 = settings := by
  constructor
  · unfold ExternalDriverConfig.try_parse
    split
    · rfl
    · split
      · rfl
      · rfl
  · unfold describe_cached
    cases lookupResolved cache key with
    | some d => rfl
    | none =>
      cases net key settings with
      | ok d => rfl
      | error e => rfl

/-- Helper: field-wise configuration parsing rejects any input that contains
a key which is neither postgres nor external, whatever fields were already
seen. -/
theorem deserializeFields_unknown_key (t : TomlTable) (k : String) (v : TomlValue)
    (hmem : (k, v) ∈ t) (hk1 : k ≠ "postgres") (hk2 : k ≠ "external") :
    ∀ pg? ext?, ∃ e, Config.deserializeFields t pg? ext? = .error e := by
  induction t with
  | nil => cases hmem
  | cons hd rest ih =>
    intro pg? ext?
    obtain ⟨k0, v0⟩ := hd
    rcases List.mem_cons.mp hmem with heq | hmem2
    · obtain ⟨hk0, hv0⟩ := Prod.mk.injEq .. ▸ heq
      subst hk0
      refine ⟨"unknown field \"" ++ k ++ "\"", ?_⟩
      unfold Config.deserializeFields
      rw [if_neg hk1, if_neg hk2]
    · by_cases hp : k0 = "postgres"
      · subst hp
        cases pg? with
        | some pg =>
          exact ⟨"duplicate field \"postgres\"", by unfold Config.deserializeFields; simp⟩
        | none =>
          cases htbl : tomlAsTable v0 with
          | error e =>
            refine ⟨e, ?_⟩
            unfold Config.deserializeFields
            simp [htbl, except_bind_error]
          | ok tbl =>
            cases hpg : PgConfig.deserialize tbl with
            | error e =>
              refine ⟨e, ?_⟩
              unfold Config.deserializeFields
              simp [htbl, hpg, except_bind_error, except_bind_ok]
            | ok pg =>
              obtain ⟨e, he⟩ := ih hmem2 (some pg) ext?
              refine ⟨e, ?_⟩
              unfold Config.deserializeFields
              simp [htbl, hpg, except_bind_error, except_bind_ok, he]
      · by_cases hx : k0 = "external"
        · subst hx
          cases ext? with
          | some ext =>
            refine ⟨"duplicate field \"external\"", ?_⟩
            unfold Config.deserializeFields
            simp
          | none =>
            cases htbl : tomlAsTable v0 with
            | error e =>
              refine ⟨e, ?_⟩
              unfold Config.deserializeFields
              simp [htbl, except_bind_error]
            | ok tbl =>
              cases hext : ExternalDriverConfig.deserialize tbl with
              | error e =>
                refine ⟨e, ?_⟩
                unfold Config.deserializeFields
                simp [htbl, hext, except_bind_error, except_bind_ok]
              | ok ext =>
                obtain ⟨e, he⟩ := ih hmem2 pg? (some ext)
                refine ⟨e, ?_⟩
                unfold Config.deserializeFields
                simp [htbl, hext, except_bind_error, except_bind_ok, he]
        · refine ⟨"unknown field \"" ++ k0 ++ "\"", ?_⟩
          unfold Config.deserializeFields
          rw [if_neg hp, if_neg hx]

/-- C8: a driver-settings input containing a top-level dialect key the core
does not recognize (neither postgres nor external) fails at configuration
parsing, so the describe path never observes such a key without a prior
error. -/
theorem unknown_dialect_key_rejected (t : TomlTable) (k : String) (v : TomlValue)
    (hmem : (k, v) ∈ t) (hk1 : k ≠ "postgres") (hk2 : k ≠ "external") :
    ∃ e, Config.deserialize t = .error e := by
  obtain ⟨e, he⟩ := deserializeFields_unknown_key t k v hmem hk1 hk2 none none
  exact ⟨e, by unfold Config.deserialize; exact he⟩

/-- Witness for unknown_dialect_key_rejected: a settings table with the
unrecognized dialect key mysql is rejected at parse time. -/
theorem unknown_dialect_key_rejected_witness :
    ∃ e, Config.deserialize [("mysql", TomlValue.table [])] = .error e :=
  unknown_dialect_key_rejected [("mysql", TomlValue.table [])] "mysql"
    (TomlValue.table []) (List.mem_singleton.mpr rfl) (by decide) (by decide)

/-- C10: the Text adapter is a transparent identity wrapper: into_inner
inverts construction, deref reads the inner value, and a mutation through
deref_mut updates that same inner value, so wrap-then-unwrap is the
identity. -/
theorem text_transparent_wrapper {T : Type} (t : T) (f : T → T) :
    (Text.mk t).into_inner = t ∧
    (Text.mk t).deref = t ∧
    Text.deref_mut_modify f (Text.mk t) = Text.mk (f t) ∧
    (∀ w : Text T, Text.mk w.into_inner = w) := by
  refine ⟨rfl, rfl, rfl, ?_⟩
  intro w
  cases w
  rfl

end Sqlx
